import Mathlib

/-!
Verification of the `thermd` iterative-solver core (`thermd/core.py` and the
component files it drives) against its natural-language specification.

Shallow embedding conventions:
* `np.float64` quantities (tolerances, deltas, pressures, signal values) are
  modelled as `ℚ`: every concrete float is a rational, and none of the verified
  properties depends on rounding behaviour.
* `np.uint16` counters are modelled as `Nat` with explicit wrapping modulo
  `2 ^ 16 = 65536` where the source increments them.
* Python exceptions become `Except`/`Option` values; raising functions return
  an error value and mutate nothing afterwards, matching the source, which
  raises before any further mutation.
-/

namespace Thermd

/-- Port direction/kind tags, from `thermd.core.PortTypes` (core.py:35-41). -/
inductive PortTypes where
  | STATE_INLET
  | STATE_OUTLET
  | STATE_INLET_OUTLET
  | SIGNAL_INLET
  | SIGNAL_OUTLET
  | SIGNAL_INLET_OUTLET
deriving DecidableEq

/-- Node tags, from `thermd.core.NodeTypes` (core.py:29-32). -/
inductive NodeTypes where
  | MODEL
  | BLOCK
  | PORT
deriving DecidableEq

/-- The solver's result record, from `thermd.core.SystemResult` (core.py:61-116).
The `models`/`blocks` result-snapshot dictionaries are passive payload that no
verified property reads, so they are not carried here; `success`, `status`,
`message` and `nit` are exactly the remaining fields.  `nit` receives the
`np.uint16` iteration counter (annotated `np.int16` in the source, but the
dataclass performs no conversion), modelled as `Nat`. -/
structure SystemResult where
  success : Bool
  status : Int
  message : String
  nit : Nat
deriving DecidableEq

/-- Constructor `SystemResult.from_success` (core.py:70-84). -/
def SystemResult.from_success (nit : Nat) : SystemResult :=
  { success := true
    status := 0
    message := "Solver finished successfully."
    nit := nit }

/-- Constructor `SystemResult.from_error` (core.py:86-100). -/
def SystemResult.from_error (nit : Nat) : SystemResult :=
  { success := false
    status := 2
    message := "Solver didn\'t finish successfully."
    nit := nit }

/-- Constructor `SystemResult.from_convergence` (core.py:102-116). -/
def SystemResult.from_convergence (nit : Nat) : SystemResult :=
  { success := false
    status := 1
    message := "Solver didn\'t converge successfully."
    nit := nit }

/-- The configuration surface of `BaseSystemClass.__init__` (core.py:147-166):
four `np.float64` stop-criterion tolerances and the `np.uint16` iteration cap. -/
structure SysConfig where
  stop_criterion_energy : ℚ
  stop_criterion_momentum : ℚ
  stop_criterion_mass : ℚ
  stop_criterion_signal : ℚ
  max_iteration_counter : Nat
deriving DecidableEq

/-- The default configuration values of `BaseSystemClass.__init__`
(core.py:148-153). -/
def defaultConfig : SysConfig :=
  { stop_criterion_energy := 1
    stop_criterion_momentum := 1
    stop_criterion_mass := 1 / 1000
    stop_criterion_signal := 1 / 1000
    max_iteration_counter := 1000 }

/-- Convergence-relevant view of one simulation node, as read by
`SystemSimpleIterative.stop_criterion` (core.py:1019-1065): its node type and
its four delta accessors.  `pre_solve` sets `_simulation_nodes` to exactly
`_models ++ _blocks` (core.py:1077), and every node registered through
`add_model`/`add_block` has node type MODEL or BLOCK, so the `SystemExit`
branch for other node types (core.py:1066-1071) is unreachable; `isModel`
records which of the two applies. -/
structure NodeDelta where
  isModel : Bool
  dEnergy : ℚ
  dMomentum : ℚ
  dMass : ℚ
  dSignal : ℚ
deriving DecidableEq

/-- The per-node scan of `stop_criterion` (core.py:1019-1065): returns `true`
as soon as one node has one tracked delta whose absolute value strictly
exceeds the corresponding tolerance; models are checked on all four deltas,
blocks on the signal delta only. -/
def anyDeltaExceeds (cfg : SysConfig) (nodes : List NodeDelta) : Bool :=
  nodes.any fun nd =>
    if nd.isModel then
      decide (cfg.stop_criterion_energy < |nd.dEnergy|) ||
      decide (cfg.stop_criterion_momentum < |nd.dMomentum|) ||
      decide (cfg.stop_criterion_mass < |nd.dMass|) ||
      decide (cfg.stop_criterion_signal < |nd.dSignal|)
    else
      decide (cfg.stop_criterion_signal < |nd.dSignal|)

/-- `SystemSimpleIterative.stop_criterion` (core.py:1009-1073), as a pure
function of the current iteration counter and the nodes' deltas; returns the
boolean result together with the updated counter.  The counter is `np.uint16`,
so the increment wraps modulo 65536.  A zero counter forces `true` (the
guaranteed first pass); afterwards the incremented counter is compared against
the cap before any delta is inspected. -/
def stopCriterion (cfg : SysConfig) (nodes : List NodeDelta) (counter : Nat) :
    Bool × Nat :=
  if counter = 0 then (true, (counter + 1) % 65536)
  else
    let c := (counter + 1) % 65536
    if cfg.max_iteration_counter < c then (false, c)
    else (anyDeltaExceeds cfg nodes, c)

/-- How the `try`-wrapped `while` loop of `solve` (core.py:1086-1180) can end:
either an exception escaped the loop body (a component's `equation()` or the
propagation code), or `stop_criterion` returned false. -/
inductive LoopExit (σ : Type) (ε : Type) where
  | errored (s : σ) (e : ε) (counter : Nat)
  | finished (s : σ) (counter : Nat)
deriving DecidableEq

/-- The solve loop (core.py:1086-1180), fuel-indexed.  `step` is one full pass
of the loop body: every simulation node's `equation()` call followed by the
propagation of its outlet ports; a raised exception is an `Except.error`.
`deltas` reads the current delta accessors of the simulation nodes.  `none`
means the loop is still running after `fuel` iterations. -/
def solveLoop {σ ε : Type} (cfg : SysConfig) (step : σ → Except ε σ)
    (deltas : σ → List NodeDelta) :
    Nat → σ → Nat → Option (LoopExit σ ε)
  | 0, _, _ => none
  | fuel + 1, s, counter =>
    match stopCriterion cfg (deltas s) counter with
    | (false, c) => some (LoopExit.finished s c)
    | (true, c) =>
      match step s with
      | Except.error e => some (LoopExit.errored s e c)
      | Except.ok s' => solveLoop cfg step deltas fuel s' c

/-- `SystemSimpleIterative.solve` (core.py:1079-1207) from the top of the
`try` block on: run the loop from iteration counter 0; an exception caught by
the `except BaseException` handler yields `SystemResult.from_error`; a normal
exit yields `from_convergence` when the counter exceeded the cap and
`from_success` otherwise.  In every terminal case the result carries the
counter value reached, and `solve` returns a `SystemResult` value rather than
propagating the loop-time exception. -/
def solve {σ ε : Type} (cfg : SysConfig) (step : σ → Except ε σ)
    (deltas : σ → List NodeDelta) (fuel : Nat) (s₀ : σ) :
    Option SystemResult :=
  match solveLoop cfg step deltas fuel s₀ 0 with
  | none => none
  | some (LoopExit.errored _ _ c) => some (SystemResult.from_error c)
  | some (LoopExit.finished _ c) =>
    if cfg.max_iteration_counter < c then some (SystemResult.from_convergence c)
    else some (SystemResult.from_success c)

/-- The spec-side convergence condition of claim C2: every model has all four
delta magnitudes within their tolerances, and every block has its signal delta
magnitude within the signal tolerance. -/
def AllWithinTolerance (cfg : SysConfig) (nodes : List NodeDelta) : Prop :=
  ∀ nd ∈ nodes,
    (nd.isModel = true →
      |nd.dEnergy| ≤ cfg.stop_criterion_energy ∧
      |nd.dMomentum| ≤ cfg.stop_criterion_momentum ∧
      |nd.dMass| ≤ cfg.stop_criterion_mass ∧
      |nd.dSignal| ≤ cfg.stop_criterion_signal) ∧
    (nd.isModel = false → |nd.dSignal| ≤ cfg.stop_criterion_signal)

/-- The spec-side continuation condition of claim C2: some single tracked delta
of some node strictly exceeds its tolerance. -/
def SomeDeltaExceeds (cfg : SysConfig) (nodes : List NodeDelta) : Prop :=
  ∃ nd ∈ nodes,
    (nd.isModel = true ∧
      (cfg.stop_criterion_energy < |nd.dEnergy| ∨
       cfg.stop_criterion_momentum < |nd.dMomentum| ∨
       cfg.stop_criterion_mass < |nd.dMass| ∨
       cfg.stop_criterion_signal < |nd.dSignal|)) ∨
    (nd.isModel = false ∧ cfg.stop_criterion_signal < |nd.dSignal|)

/-- Balance fields of `BaseModelClass` (core.py:460-462). -/
structure ModelBalances where
  energy_balance : ℚ
  momentum_balance : ℚ
  mass_balance : ℚ
deriving DecidableEq

/-- `BaseModelClass.check_state` (core.py:538-568), translated literally: each
balance is compared with `!=` against the corresponding maximum-error argument
(the log messages speak of a balance "above the maximum error", but the code
returns False whenever balance and tolerance differ). -/
def check_state (m : ModelBalances) (max_error_energy max_error_momentum
    max_error_mass : ℚ) : Bool :=
  if m.energy_balance ≠ max_error_energy then false
  else if m.momentum_balance ≠ max_error_momentum then false
  else if m.mass_balance ≠ max_error_mass then false
  else true

/-- A one-model delta reading whose energy delta (2) always exceeds the default
tolerance (1): the never-converging scenario of claim C3. -/
def oscDeltas : Unit → List NodeDelta := fun _ => [⟨true, 2, 0, 0, 0⟩]

/-- A loop body that never raises and changes nothing. -/
def okStep : Unit → Except Unit Unit := fun _ => Except.ok ()

/-- The default tolerances with the iteration cap set to 0, a representable
`max_iteration_counter` kwarg value (`np.uint16(0)`). -/
def cfgCap0 : SysConfig := { defaultConfig with max_iteration_counter := 0 }

/-- The default tolerances with the iteration cap set to 2 (used to exercise
the amended claim C3 on a concrete system). -/
def cfgCap2 : SysConfig := { defaultConfig with max_iteration_counter := 2 }

/-! Graph registration and connection (`BaseSystemClass`). -/

/-- Registration-relevant surface of a port: its `name` and `port_type`
attributes, as read by `add_model`/`add_block` (core.py:219-238, 256-275). -/
structure GPort where
  name : String
  port_type : PortTypes
deriving DecidableEq

/-- Registration-relevant surface of a model or block: its `name` and the
insertion-ordered `ports.values()`. -/
structure GUnit where
  name : String
  ports : List GPort
deriving DecidableEq

/-- The system's graph state (`BaseSystemClass.__init__`, core.py:168-177):
the `networkx.DiGraph` (node set and directed edge set; the per-node attribute
dictionaries carry no verified information), the `_models` and `_blocks` name
lists and the `_ports` owner-to-port-names index. -/
structure SysGraph where
  nodes : List String
  edges : List (String × String)
  models : List String
  blocks : List String
  portsIdx : List (String × List String)
deriving DecidableEq

/-- `networkx.DiGraph.add_node`: adding an existing node is a no-op. -/
def addNodeNx (nodes : List String) (n : String) : List String :=
  if n ∈ nodes then nodes else nodes ++ [n]

/-- `networkx.DiGraph.add_edge` on the edge set: adding an existing edge is a
no-op. -/
def addEdgeNx (edges : List (String × String)) (e : String × String) :
    List (String × String) :=
  if e ∈ edges then edges else edges ++ [e]

/-- `networkx.DiGraph.add_edge` on the whole graph: both endpoints are also
registered as nodes. -/
def SysGraph.addEdge (g : SysGraph) (a b : String) : SysGraph :=
  { g with nodes := addNodeNx (addNodeNx g.nodes a) b
           edges := addEdgeNx g.edges (a, b) }

/-- The Python class of a port object (`__class__.__name__`), which `connect`
compares to decide payload-kind compatibility (core.py:280). -/
inductive PortCls where
  | state
  | signal
deriving DecidableEq

/-- What `connect` reads from each port argument: `name`, Python class and
`port_type`. -/
structure ConnPort where
  name : String
  cls : PortCls
  port_type : PortTypes
deriving DecidableEq

/-- The outlet-like port types accepted for `connect`'s first argument
(core.py:281-288). -/
def outletLike : List PortTypes :=
  [PortTypes.STATE_OUTLET, PortTypes.STATE_INLET_OUTLET,
   PortTypes.SIGNAL_OUTLET, PortTypes.SIGNAL_INLET_OUTLET]

/-- The inlet-like port types accepted for `connect`'s second argument
(core.py:289-297). -/
def inletLike : List PortTypes :=
  [PortTypes.STATE_INLET, PortTypes.STATE_INLET_OUTLET,
   PortTypes.SIGNAL_INLET, PortTypes.SIGNAL_INLET_OUTLET]

/-- The two `SystemExit`-raising branches of `connect`: wrong direction roles
(core.py:301-310) and mismatched port classes (core.py:311-313). -/
inductive ConnectError where
  | wrongDirection
  | incompatibleKinds
deriving DecidableEq

/-- `BaseSystemClass.connect` (core.py:277-313).  Both error branches raise
before `add_edge` runs, so on an error the graph is left exactly as it was. -/
def connect (g : SysGraph) (port1 port2 : ConnPort) :
    Except ConnectError SysGraph :=
  if port1.cls = port2.cls then
    if port1.port_type ∈ outletLike ∧ port2.port_type ∈ inletLike then
      Except.ok (g.addEdge port1.name port2.name)
    else Except.error ConnectError.wrongDirection
  else Except.error ConnectError.incompatibleKinds

/-- The port types the registration loop treats as inlets (core.py:226-230). -/
def inletTypes : List PortTypes :=
  [PortTypes.STATE_INLET, PortTypes.SIGNAL_INLET]

/-- The port types the registration loop treats as outlets (core.py:231-235). -/
def outletTypes : List PortTypes :=
  [PortTypes.STATE_OUTLET, PortTypes.SIGNAL_OUTLET]

/-- The `SystemExit`-raising outcomes of `add_model`/`add_block`: a duplicate
unit name (raised before any mutation), or a port whose type is neither a pure
inlet nor a pure outlet ("Wrong port function", raised mid-loop with the
partially-built graph left behind, carried here as `sofar`). -/
inductive AddUnitError where
  | duplicateName
  | wrongPortFunction (sofar : SysGraph)
deriving DecidableEq

/-- `self._ports[owner].append(port.name)` (core.py:224, 261). -/
def appendPortIdx (idx : List (String × List String)) (owner pname : String) :
    List (String × List String) :=
  idx.map fun e => if e.1 = owner then (e.1, e.2 ++ [pname]) else e

/-- The port-registration loop shared verbatim by `add_model` (core.py:219-238)
and `add_block` (core.py:256-275): each port is added as a graph node and
appended to the owner's port index; a pure inlet contributes edge
port → owner, a pure outlet edge owner → port, and any other port type — in
particular `STATE_INLET_OUTLET` and `SIGNAL_INLET_OUTLET` — falls into the
`else` branch, which logs "Wrong port function" and raises `SystemExit`. -/
def addPortsLoop (owner : String) :
    SysGraph → List GPort → Except AddUnitError SysGraph
  | g, [] => Except.ok g
  | g, p :: ps =>
    let g1 : SysGraph :=
      { g with nodes := addNodeNx g.nodes p.name
               portsIdx := appendPortIdx g.portsIdx owner p.name }
    if p.port_type ∈ inletTypes then
      addPortsLoop owner (g1.addEdge p.name owner) ps
    else if p.port_type ∈ outletTypes then
      addPortsLoop owner (g1.addEdge owner p.name) ps
    else Except.error (AddUnitError.wrongPortFunction g1)

/-- `BaseSystemClass.add_model` (core.py:203-238). -/
def add_model (g : SysGraph) (u : GUnit) : Except AddUnitError SysGraph :=
  if u.name ∈ g.models then Except.error AddUnitError.duplicateName
  else
    addPortsLoop u.name
      { g with nodes := addNodeNx g.nodes u.name
               models := g.models ++ [u.name]
               portsIdx := g.portsIdx ++ [(u.name, [])] } u.ports

/-- `BaseSystemClass.add_block` (core.py:240-275). -/
def add_block (g : SysGraph) (u : GUnit) : Except AddUnitError SysGraph :=
  if u.name ∈ g.blocks then Except.error AddUnitError.duplicateName
  else
    addPortsLoop u.name
      { g with nodes := addNodeNx g.nodes u.name
               blocks := g.blocks ++ [u.name]
               portsIdx := g.portsIdx ++ [(u.name, [])] } u.ports

/-! Payload propagation inside the solve loop (core.py:1093-1179). -/

/-- A state payload as the propagation code observes it: the mutable `m_flow`
tested by the no-flow short-circuit, plus the thermodynamic content, which
propagation copies opaquely (collapsed to one rational). -/
structure StateVal where
  m_flow : ℚ
  content : ℚ
deriving DecidableEq

/-- A port payload: a `PortState` holds a state, a `PortSignal` a signal
value. -/
inductive Payload where
  | state (s : StateVal)
  | signal (v : ℚ)
deriving DecidableEq

/-- A port as the propagation code observes it: its `port_type` and its
current payload. -/
structure PortData where
  port_type : PortTypes
  payload : Payload
deriving DecidableEq

/-- The `node_class` attribute of a model/block node: its `ports` dict
(insertion-ordered). -/
structure PNode where
  ports : List (String × PortData)
deriving DecidableEq

/-- The solver-visible network: the DiGraph's edge list (fixed during solve)
and the registered units with their ports.  Port payloads are the only part
that mutates during a pass. -/
structure Net where
  edges : List (String × String)
  units : List (String × PNode)
deriving DecidableEq

/-- `networkx.DiGraph.successors`: targets of the edges leaving `x`, in edge
insertion order. -/
def succlist (net : Net) (x : String) : List String :=
  (net.edges.filter fun e => e.1 == x).map (·.2)

/-- `self._network.nodes[n]["node_class"].ports[q]` (core.py:1100-1153). -/
def lookupPort (net : Net) (n q : String) : Option PortData :=
  match (net.units.find? fun u => u.1 == n).map (·.2) with
  | some nd => (nd.ports.find? fun pp => pp.1 == q).map (·.2)
  | none => none

/-- The payload currently stored at port `q` of unit `n`. -/
def getPayload (net : Net) (n q : String) : Option Payload :=
  (lookupPort net n q).map (·.payload)

/-- Store `pl` into port `q` of unit `n` (the `.state = ...` / `.signal = ...`
assignments of core.py:1147-1179; the setter copies, which for payload values
is the identity). -/
def setPortPayload (net : Net) (n q : String) (pl : Payload) : Net :=
  { net with units := net.units.map fun u =>
      (u.1, if u.1 == n then
          ⟨u.2.ports.map fun pp =>
            (pp.1, if pp.1 == q then { pp.2 with payload := pl } else pp.2)⟩
        else u.2) }

/-- Outlet-side state types of the propagation compatibility test
(core.py:1128-1135). -/
def stateOutletLike : List PortTypes :=
  [PortTypes.STATE_OUTLET, PortTypes.STATE_INLET_OUTLET]

/-- Inlet-side state types of the propagation compatibility test
(core.py:1136-1146). -/
def stateInletLike : List PortTypes :=
  [PortTypes.STATE_INLET, PortTypes.STATE_INLET_OUTLET]

/-- Outlet-side signal types of the propagation compatibility test
(core.py:1154-1161). -/
def signalOutletLike : List PortTypes :=
  [PortTypes.SIGNAL_OUTLET, PortTypes.SIGNAL_INLET_OUTLET]

/-- Inlet-side signal types of the propagation compatibility test
(core.py:1162-1172). -/
def signalInletLike : List PortTypes :=
  [PortTypes.SIGNAL_INLET, PortTypes.SIGNAL_INLET_OUTLET]

/-- One write of the propagation inner loop (core.py:1128-1179): copy the
payload of outlet port `o` of unit `n` into port `c` of unit `sn` when the
two `port_type`s pass the state-to-state or signal-to-signal outlet-to-inlet
test; otherwise do nothing. -/
def propagateWrite (net : Net) (n o c sn : String) : Net :=
  match lookupPort net n o, lookupPort net sn c with
  | some opd, some cpd =>
    if opd.port_type ∈ stateOutletLike ∧ cpd.port_type ∈ stateInletLike then
      setPortPayload net sn c opd.payload
    else if opd.port_type ∈ signalOutletLike ∧ cpd.port_type ∈ signalInletLike then
      setPortPayload net sn c opd.payload
    else net
  | _, _ => net

/-- The no-flow short-circuit test (core.py:1100-1112): the outlet port object
is a `PortState` and its state's `m_flow` is ≤ 0. -/
def skipOutlet (net : Net) (n o : String) : Bool :=
  match lookupPort net n o with
  | some pd =>
    match pd.payload with
    | Payload.state s => decide (s.m_flow ≤ 0)
    | Payload.signal _ => false
  | none => false

/-- The two inner propagation loops for one outlet port `o` of unit `n`
(core.py:1114-1179): for each connected port `c` (user-declared edge `o → c`)
and each successor unit `sn` of `c` (containment edge `c → sn`), perform the
compatibility-guarded copy. -/
def propagateOutlet (net : Net) (n o : String) : Net :=
  (succlist net o).foldl
    (fun acc c =>
      (succlist acc c).foldl (fun acc2 sn => propagateWrite acc2 n o c sn) acc)
    net

/-- The propagation part of one node's turn in the solve loop
(core.py:1098-1179): every successor `o` of `n` (its outlet ports) is either
skipped by the no-flow short-circuit or propagated. -/
def propagateNode (net : Net) (n : String) : Net :=
  (succlist net n).foldl
    (fun acc o => if skipOutlet acc n o then acc else propagateOutlet acc n o)
    net

/-! Port payload copy semantics (claim C5): a minimal heap of payload
objects, with Python references modelled as addresses. -/

/-- A heap address identifying one Python payload object. -/
abbrev Addr := Nat

/-- A payload object's value.  A state object is addressed by its `(p, hmass)`
property basis plus its mutable `m_flow` — `MediumCoolProp.copy`
(coolprop.py:553-565) rebuilds exactly this triple in a fresh backend, and by
the spec's two-property invariant that reproduces the whole property
surface — and a signal object by its `value`. -/
inductive ObjVal where
  | state (p : ℚ) (hmass : ℚ) (m_flow : ℚ)
  | signal (value : ℚ)
deriving DecidableEq

/-- The heap: allocated objects and the next fresh address. -/
structure Heap where
  objs : List (Addr × ObjVal)
  next : Addr
deriving DecidableEq

/-- Dereference an address. -/
def Heap.get (h : Heap) (a : Addr) : Option ObjVal :=
  (h.objs.find? fun p => p.1 == a).map (·.2)

/-- Allocate a new object, returning the new heap and the object's address. -/
def Heap.alloc (h : Heap) (v : ObjVal) : Heap × Addr :=
  ({ objs := (h.next, v) :: h.objs, next := h.next + 1 }, h.next)

/-- Mutate the object behind an existing reference (e.g. `state.m_flow = x`
via the `m_flow` setter, or `signal.value = x` via the `value` setter). -/
def Heap.setObj (h : Heap) (a : Addr) (v : ObjVal) : Heap :=
  { h with objs := h.objs.map fun p => if p.1 = a then (p.1, v) else p }

/-- `copy()` of a payload object: allocate a fresh object carrying the same
value.  `SignalBoolean/Integer/Float/Complex.copy` build a new object from
`_value` (core.py:1463-1576); `MediumCoolProp.copy` builds a new
`AbstractState` from the current `(p, hmass, m_flow)` (coolprop.py:553-565). -/
def Heap.copyObj (h : Heap) (a : Addr) : Option (Heap × Addr) :=
  match h.get a with
  | none => none
  | some v => some (h.alloc v)

/-- A port object: `PortState._state` / `PortSignal._signal` is a reference to
a payload object. -/
structure PortObj where
  payloadAddr : Addr
deriving DecidableEq

/-- The payload setters `PortState.state = ...` (core.py:1236-1238) and
`PortSignal.signal = ...` (core.py:1266-1268): the port stores `arg.copy()`,
never the argument itself.  The solver's propagation assignments
(core.py:1147-1179) go through exactly these setters. -/
def setPayload (h : Heap) (src : Addr) : Option (Heap × PortObj) :=
  (h.copyObj src).map fun hc => (hc.1, ⟨hc.2⟩)

/-! Component equations (claim C7): `PumpSimple` (machines.py) and `Addition`
(blocks/math.py). -/

/-- The two-property basis last pushed into a `MediumCoolProp` backend by one
of the `from_*` constructors or `set_*` updates. -/
inductive MediumBasis where
  | pT (p T : ℚ)
  | ph (p h : ℚ)
  | ps (p s : ℚ)
deriving DecidableEq

/-- The external property backend (CoolProp) as an opaque oracle: every
thermodynamic property is a pure function of the current basis (the spec's §3
invariant: the defining two properties determine all others). -/
structure PropertyOracle where
  pOf : MediumBasis → ℚ
  hmassOf : MediumBasis → ℚ
  smassOf : MediumBasis → ℚ

/-- A `MediumCoolProp` state object: the backend basis plus the directly-owned
mutable `_m_flow` (coolprop.py:535-551). -/
structure MediumState where
  basis : MediumBasis
  m_flow : ℚ
deriving DecidableEq

/-- `MediumCoolProp.set_ps` (coolprop.py:946-947): re-base the backend on the
pressure/entropy pair. -/
def MediumState.set_ps (st : MediumState) (p s : ℚ) : MediumState :=
  { st with basis := MediumBasis.ps p s }

/-- The mutable state of one `PumpSimple` instance (machines.py:46-140): the
payloads of its two ports and the three `_last_*` snapshots, plus the fixed
`_dp` parameter. -/
structure PumpSimpleState where
  port_a : MediumState
  port_b : MediumState
  dp : ℚ
  last_hmass : ℚ
  last_p : ℚ
  last_m_flow : ℚ
deriving DecidableEq

/-- `PumpSimple.equation` (machines.py:125-140): re-base the outlet state at
`(p_a + dp, s_a)`, copy the inlet mass flow, then snapshot the outlet's
`hmass`, `p` and `m_flow` into the `_last_*` fields. -/
def PumpSimple.equation (oracle : PropertyOracle) (pu : PumpSimpleState) :
    PumpSimpleState :=
  let b1 := pu.port_b.set_ps (oracle.pOf pu.port_a.basis + pu.dp)
    (oracle.smassOf pu.port_a.basis)
  let b2 : MediumState := { b1 with m_flow := pu.port_a.m_flow }
  { pu with port_b := b2
            last_hmass := oracle.hmassOf b2.basis
            last_p := oracle.pOf b2.basis
            last_m_flow := b2.m_flow }

/-- `PumpSimple.stop_criterion_energy` (machines.py:107-109). -/
def PumpSimple.stop_criterion_energy (oracle : PropertyOracle)
    (pu : PumpSimpleState) : ℚ :=
  oracle.hmassOf pu.port_b.basis - pu.last_hmass

/-- `PumpSimple.stop_criterion_momentum` (machines.py:111-113). -/
def PumpSimple.stop_criterion_momentum (oracle : PropertyOracle)
    (pu : PumpSimpleState) : ℚ :=
  oracle.pOf pu.port_b.basis - pu.last_p

/-- `PumpSimple.stop_criterion_mass` (machines.py:115-117). -/
def PumpSimple.stop_criterion_mass (pu : PumpSimpleState) : ℚ :=
  pu.port_b.m_flow - pu.last_m_flow

/-- The mutable state of one `Addition` block (blocks/math.py:22-49 together
with `BaseBlockTwoInletsOneOutlet`, blocks/core.py): the signal values of its
three ports and the `_last_signal_value` snapshot. -/
structure AdditionState where
  port_c1 : ℚ
  port_c2 : ℚ
  port_d : ℚ
  last_signal_value : ℚ
deriving DecidableEq

/-- `Addition.equation` (blocks/math.py:42-49): snapshot the current outlet
value, then set the outlet to the sum of the two inlets. -/
def Addition.equation (a : AdditionState) : AdditionState :=
  { a with last_signal_value := a.port_d
           port_d := a.port_c1 + a.port_c2 }

/-- `BaseBlockTwoInletsOneOutlet.stop_criterion_signal` (blocks/core.py). -/
def Addition.stop_criterion_signal (a : AdditionState) : ℚ :=
  a.port_d - a.last_signal_value

/-! Instantiating `PumpSimple` (claim C4): the Python-level checks that run
before any pump physics can. -/

/-- Parameter keywords accepted by `PortState.__init__` besides `self`
(core.py:1219-1230). -/
def portStateInitParams : List String := ["name", "port_type", "state"]

/-- Keyword arguments `PumpSimple.__init__` passes when building each of its
two ports (machines.py:76-89). -/
def pumpSimplePortCallKeywords : List String := ["name", "port_type", "port_attr"]

/-- Python keyword binding: a call binds iff every passed keyword names a
declared parameter; an unexpected keyword raises `TypeError`. -/
def keywordsBind (params callKeywords : List String) : Bool :=
  callKeywords.all fun k => params.contains k

/-- The abstract methods/properties `BaseModelClass` declares
(core.py:472-584). -/
def baseModelAbstractMethods : List String :=
  ["stop_criterion_energy", "stop_criterion_momentum", "stop_criterion_mass",
   "stop_criterion_signal", "update_balances", "check_self", "get_results",
   "equation"]

/-- The methods/properties `PumpSimple` itself defines (machines.py:46-140). -/
def pumpSimpleMethods : List String :=
  ["port_a", "port_b", "stop_criterion_energy", "stop_criterion_momentum",
   "stop_criterion_mass", "check", "get_results", "equation"]

/-- Abstract methods of `BaseModelClass` that `PumpSimple` leaves
unimplemented.  Python's ABC machinery raises `TypeError` at every
instantiation attempt while this list is non-empty, before
`PumpSimple.__init__` can run. -/
def pumpSimpleUnimplementedAbstract : List String :=
  baseModelAbstractMethods.filter fun m => ! pumpSimpleMethods.contains m

/-! Concrete instances used to exercise the general theorems. -/

/-- A system with no registered nodes: its delta list is empty. -/
def emptyDeltas : Unit → List NodeDelta := fun _ => []

/-- The empty system graph (`BaseSystemClass.__init__`, core.py:168-177). -/
def emptyGraph : SysGraph := ⟨[], [], [], [], []⟩

/-- A pump-like unit with one pure inlet and one pure outlet port, following
the port layout of `PumpSimple.__init__` (machines.py:73-89). -/
def unitPumpLike : GUnit :=
  ⟨"pump1", [⟨"pump1_port_a", PortTypes.STATE_INLET⟩,
             ⟨"pump1_port_b", PortTypes.STATE_OUTLET⟩]⟩

/-- A unit with a single state inlet-outlet port. -/
def unitInletOutlet : GUnit :=
  ⟨"m1", [⟨"m1_port_ab", PortTypes.STATE_INLET_OUTLET⟩]⟩

/-- A two-unit network for the no-flow short-circuit: unit `n1` has a state
outlet `b` holding a stagnant state (`m_flow = 0`), user-connected to state
inlet `b2` of unit `m2`. -/
def netNoFlow : Net :=
  { edges := [("n1", "b"), ("b", "b2"), ("b2", "m2")]
    units :=
      [("n1", ⟨[("b", ⟨PortTypes.STATE_OUTLET, Payload.state ⟨0, 5⟩⟩)]⟩),
       ("m2", ⟨[("b2", ⟨PortTypes.STATE_INLET, Payload.state ⟨1, 9⟩⟩)]⟩)] }

/-! Theorems. -/

lemma anyDeltaExceeds_iff (cfg : SysConfig) (nodes : List NodeDelta) :
    anyDeltaExceeds cfg nodes = true ↔ SomeDeltaExceeds cfg nodes := by
  simp only [anyDeltaExceeds, SomeDeltaExceeds, List.any_eq_true]
  refine exists_congr fun nd => and_congr_right fun _ => ?_
  cases him : nd.isModel
  · simp [him]
  · simp [him, or_assoc]

lemma anyDeltaExceeds_eq_false_iff (cfg : SysConfig) (nodes : List NodeDelta) :
    anyDeltaExceeds cfg nodes = false ↔ AllWithinTolerance cfg nodes := by
  simp only [anyDeltaExceeds, AllWithinTolerance, List.any_eq_false]
  refine forall_congr' fun nd => ?_
  refine forall_congr' fun _ => ?_
  cases him : nd.isModel
  · simp [him, not_lt]
  · simp [him, not_lt, and_assoc]

/-- C2: after the guaranteed first pass and while the incremented counter has
not exceeded the cap, `stop_criterion` returns false iff every model's four
delta magnitudes and every block's signal delta magnitude are within their
tolerances, and true iff some single tracked delta of some node strictly
exceeds its tolerance. -/
theorem stop_criterion_convergence_iff (cfg : SysConfig)
    (nodes : List NodeDelta) (counter : Nat) (h0 : counter ≠ 0)
    (hcap : (counter + 1) % 65536 ≤ cfg.max_iteration_counter) :
    ((stopCriterion cfg nodes counter).1 = false ↔
      AllWithinTolerance cfg nodes) ∧
    ((stopCriterion cfg nodes counter).1 = true ↔
      SomeDeltaExceeds cfg nodes) := by
  have hc : ¬ (cfg.max_iteration_counter < (counter + 1) % 65536) :=
    not_lt.mpr hcap
  unfold stopCriterion
  rw [if_neg h0]
  simp only [if_neg hc]
  exact ⟨anyDeltaExceeds_eq_false_iff cfg nodes, anyDeltaExceeds_iff cfg nodes⟩

/-- Witness for C2 at a concrete input: a single converged model at counter 1
under the default tolerances. -/
theorem stop_criterion_convergence_iff_witness :
    ((1 : Nat) ≠ 0 ∧ (1 + 1) % 65536 ≤ defaultConfig.max_iteration_counter) ∧
    (((stopCriterion defaultConfig [⟨true, 0, 0, 0, 0⟩] 1).1 = false ↔
        AllWithinTolerance defaultConfig [⟨true, 0, 0, 0, 0⟩]) ∧
      ((stopCriterion defaultConfig [⟨true, 0, 0, 0, 0⟩] 1).1 = true ↔
        SomeDeltaExceeds defaultConfig [⟨true, 0, 0, 0, 0⟩])) :=
  ⟨⟨by decide, by decide⟩,
    stop_criterion_convergence_iff defaultConfig [⟨true, 0, 0, 0, 0⟩] 1
      (by decide) (by decide)⟩

/-- C10: `check_state` with all three balances exactly 0.0 under the default
maximum errors (1, 1, 0.001) returns False, although every balance magnitude
is within its tolerance: the code compares each balance with `!=` against the
tolerance instead of testing whether its magnitude exceeds it (its own log
message speaks of a balance "above the maximum error"). -/
theorem check_state_rejects_zero_balances :
    check_state ⟨0, 0, 0⟩ 1 1 (1 / 1000) = false ∧
    |(0 : ℚ)| ≤ 1 ∧ |(0 : ℚ)| ≤ 1 ∧ |(0 : ℚ)| ≤ 1 / 1000 :=
  ⟨by decide, by norm_num, by norm_num, by norm_num⟩

/-- C4: the worked two-pump scenario cannot run. `PumpSimple` leaves three
abstract methods of `BaseModelClass` unimplemented, so Python raises
`TypeError` at every instantiation attempt; and even past that check, its
`__init__` passes the keyword `port_attr` to `PortState.__init__`, whose
parameter is named `state`, raising `TypeError` again.  `solve()` can
therefore never be reached, let alone return CONVERGED with outlet pressure
102000 Pa. -/
theorem pumpSimple_instantiation_fails :
    pumpSimpleUnimplementedAbstract =
      ["stop_criterion_signal", "update_balances", "check_self"] ∧
    keywordsBind portStateInitParams pumpSimplePortCallKeywords = false := by
  decide

/-- C7: with unchanged inputs, a second `equation()` call reproduces the first
call's output port payloads exactly (for `PumpSimple` the whole instance state
is a fixed point of the second call), and every stop-criterion delta accessor
of the component returns exactly 0 after the second call; shown for the
`PumpSimple` model (over an arbitrary property oracle) and the `Addition`
block. -/
theorem equation_second_call_identical (oracle : PropertyOracle)
    (pu : PumpSimpleState) (a : AdditionState) :
    (PumpSimple.equation oracle (PumpSimple.equation oracle pu) =
        PumpSimple.equation oracle pu ∧
      PumpSimple.stop_criterion_energy oracle
        (PumpSimple.equation oracle (PumpSimple.equation oracle pu)) = 0 ∧
      PumpSimple.stop_criterion_momentum oracle
        (PumpSimple.equation oracle (PumpSimple.equation oracle pu)) = 0 ∧
      PumpSimple.stop_criterion_mass
        (PumpSimple.equation oracle (PumpSimple.equation oracle pu)) = 0) ∧
    ((Addition.equation (Addition.equation a)).port_d =
        (Addition.equation a).port_d ∧
      Addition.stop_criterion_signal
        (Addition.equation (Addition.equation a)) = 0) := by
  refine ⟨⟨rfl, ?_, ?_, ?_⟩, ⟨rfl, ?_⟩⟩ <;>
    simp [PumpSimple.equation, PumpSimple.stop_criterion_energy,
      PumpSimple.stop_criterion_momentum, PumpSimple.stop_criterion_mass,
      Addition.equation, Addition.stop_criterion_signal, MediumState.set_ps]

/-- C1: every terminating `solve` call returns a result in exactly one of the
three terminal forms, and each form corresponds to its trigger. -/
theorem solve_terminal_trichotomy {σ ε : Type} (cfg : SysConfig)
    (step : σ → Except ε σ) (deltas : σ → List NodeDelta) (fuel : Nat)
    (s₀ : σ) (r : SystemResult)
    (h : solve cfg step deltas fuel s₀ = some r) :
    ((r.success = true ∧ r.status = 0 ∧
        r.message = "Solver finished successfully.") ∨
      (r.success = false ∧ r.status = 1 ∧
        r.message = "Solver didn\'t converge successfully.") ∨
      (r.success = false ∧ r.status = 2 ∧
        r.message = "Solver didn\'t finish successfully.")) ∧
    (r.status = 0 ↔ (∃ s, solveLoop cfg step deltas fuel s₀ 0 =
        some (LoopExit.finished s r.nit)) ∧
        r.nit ≤ cfg.max_iteration_counter) ∧
    (r.status = 1 ↔ (∃ s, solveLoop cfg step deltas fuel s₀ 0 =
        some (LoopExit.finished s r.nit)) ∧
        cfg.max_iteration_counter < r.nit) ∧
    (r.status = 2 ↔ ∃ s e, solveLoop cfg step deltas fuel s₀ 0 =
        some (LoopExit.errored s e r.nit)) := by
  cases hl : solveLoop cfg step deltas fuel s₀ 0 with
  | none =>
    unfold solve at h
    rw [hl] at h
    cases h
  | some ex =>
    unfold solve at h
    rw [hl] at h
    cases ex with
    | errored s e c =>
      simp only [Option.some.injEq] at h
      subst h
      refine ⟨Or.inr (Or.inr ⟨rfl, rfl, rfl⟩), ?_, ?_, ?_⟩
      · constructor
        · intro h0; simp [SystemResult.from_error] at h0
        · rintro ⟨⟨s', hs'⟩, -⟩; simp at hs'
      · constructor
        · intro h0; simp [SystemResult.from_error] at h0
        · rintro ⟨⟨s', hs'⟩, -⟩; simp at hs'
      · exact ⟨fun _ => ⟨s, e, rfl⟩, fun _ => rfl⟩
    | finished s c =>
      have h2 : (if cfg.max_iteration_counter < c then
          some (SystemResult.from_convergence c)
        else some (SystemResult.from_success c)) = some r := h
      by_cases hm : cfg.max_iteration_counter < c
      · rw [if_pos hm] at h2
        simp only [Option.some.injEq] at h2
        subst h2
        refine ⟨Or.inr (Or.inl ⟨rfl, rfl, rfl⟩), ?_, ?_, ?_⟩
        · constructor
          · intro h0; simp [SystemResult.from_convergence] at h0
          · rintro ⟨-, hle⟩; exact absurd hm (not_lt.mpr hle)
        · exact ⟨fun _ => ⟨⟨s, rfl⟩, hm⟩, fun _ => rfl⟩
        · constructor
          · intro h0; simp [SystemResult.from_convergence] at h0
          · rintro ⟨s', e', hs'⟩; simp at hs'
      · rw [if_neg hm] at h2
        simp only [Option.some.injEq] at h2
        subst h2
        refine ⟨Or.inl ⟨rfl, rfl, rfl⟩, ?_, ?_, ?_⟩
        · exact ⟨fun _ => ⟨⟨s, rfl⟩, not_lt.mp hm⟩, fun _ => rfl⟩
        · constructor
          · intro h0; simp [SystemResult.from_success] at h0
          · rintro ⟨-, hlt⟩; exact absurd hlt hm
        · constructor
          · intro h0; simp [SystemResult.from_success] at h0
          · rintro ⟨s', e', hs'⟩; simp at hs'

/-- Witness for C1 at a concrete input: an empty system under the default
configuration converges after the guaranteed first pass (counter 2). -/
theorem solve_terminal_trichotomy_witness :
    (solve defaultConfig okStep emptyDeltas 5 () =
      some (SystemResult.from_success 2)) ∧
    (((SystemResult.from_success 2).success = true ∧
        (SystemResult.from_success 2).status = 0 ∧
        (SystemResult.from_success 2).message =
          "Solver finished successfully.") ∨
      ((SystemResult.from_success 2).success = false ∧
        (SystemResult.from_success 2).status = 1 ∧
        (SystemResult.from_success 2).message =
          "Solver didn\'t converge successfully.") ∨
      ((SystemResult.from_success 2).success = false ∧
        (SystemResult.from_success 2).status = 2 ∧
        (SystemResult.from_success 2).message =
          "Solver didn\'t finish successfully.")) ∧
    ((SystemResult.from_success 2).status = 0 ↔
      (∃ s, solveLoop defaultConfig okStep emptyDeltas 5 () 0 =
        some (LoopExit.finished s (SystemResult.from_success 2).nit)) ∧
        (SystemResult.from_success 2).nit ≤
          defaultConfig.max_iteration_counter) ∧
    ((SystemResult.from_success 2).status = 1 ↔
      (∃ s, solveLoop defaultConfig okStep emptyDeltas 5 () 0 =
        some (LoopExit.finished s (SystemResult.from_success 2).nit)) ∧
        defaultConfig.max_iteration_counter <
          (SystemResult.from_success 2).nit) ∧
    ((SystemResult.from_success 2).status = 2 ↔
      ∃ s e, solveLoop defaultConfig okStep emptyDeltas 5 () 0 =
        some (LoopExit.errored s e (SystemResult.from_success 2).nit)) :=
  ⟨by decide,
    solve_terminal_trichotomy defaultConfig okStep emptyDeltas 5 ()
      (SystemResult.from_success 2) (by decide)⟩


lemma solveLoop_divergent_finishes {σ ε : Type} (cfg : SysConfig)
    (step : σ → Except ε σ) (deltas : σ → List NodeDelta)
    (hmax2 : cfg.max_iteration_counter < 65535)
    (hstep : ∀ s, ∃ s', step s = Except.ok s')
    (hdiv : ∀ s, anyDeltaExceeds cfg (deltas s) = true) :
    ∀ (k : Nat) (s : σ) (c : Nat) (fuel : Nat),
      1 ≤ c → c + k = cfg.max_iteration_counter → k + 1 ≤ fuel →
      ∃ s', solveLoop cfg step deltas fuel s c =
        some (LoopExit.finished s' (cfg.max_iteration_counter + 1)) := by
  intro k
  induction k with
  | zero =>
    intro s c fuel h1 h2 h3
    obtain ⟨f, rfl⟩ : ∃ f, fuel = f + 1 := ⟨fuel - 1, by omega⟩
    have hc0 : ¬ (c = 0) := by omega
    have hsc : stopCriterion cfg (deltas s) c =
        (false, cfg.max_iteration_counter + 1) := by
      unfold stopCriterion
      rw [if_neg hc0]
      simp only [Nat.mod_eq_of_lt (by omega : c + 1 < 65536)]
      rw [if_pos (by omega : cfg.max_iteration_counter < c + 1)]
      rw [show c = cfg.max_iteration_counter by omega]
    exact ⟨s, by simp [solveLoop, hsc]⟩
  | succ k ih =>
    intro s c fuel h1 h2 h3
    obtain ⟨f, rfl⟩ : ∃ f, fuel = f + 1 := ⟨fuel - 1, by omega⟩
    have hc0 : ¬ (c = 0) := by omega
    have hsc : stopCriterion cfg (deltas s) c = (true, c + 1) := by
      unfold stopCriterion
      rw [if_neg hc0]
      simp only [Nat.mod_eq_of_lt (by omega : c + 1 < 65536)]
      rw [if_neg (by omega : ¬ (cfg.max_iteration_counter < c + 1))]
      rw [hdiv s]
    obtain ⟨s', hs'⟩ := hstep s
    obtain ⟨s'', hs''⟩ := ih s' (c + 1) f (by omega) (by omega) (by omega)
    exact ⟨s'', by simp [solveLoop, hsc, hs', hs'']⟩

/-- C3 (amended): the first `stop_criterion` call returns true unconditionally
(guaranteeing one full equation pass), and — provided the iteration cap is at
least 1 and below the `np.uint16` maximum 65535 — a system whose deltas always
exceed their tolerances makes `solve` return the NOT-CONVERGED result with the
iteration counter exactly `max_iteration_counter + 1`. -/
theorem solve_divergent_hits_cap {σ ε : Type} (cfg : SysConfig)
    (step : σ → Except ε σ) (deltas : σ → List NodeDelta) (s₀ : σ)
    (hmax1 : 1 ≤ cfg.max_iteration_counter)
    (hmax2 : cfg.max_iteration_counter < 65535)
    (hstep : ∀ s, ∃ s', step s = Except.ok s')
    (hdiv : ∀ s, anyDeltaExceeds cfg (deltas s) = true) :
    (∀ nodes, (stopCriterion cfg nodes 0).1 = true) ∧
    ∀ fuel, cfg.max_iteration_counter + 1 ≤ fuel →
      solve cfg step deltas fuel s₀ = some
        (SystemResult.from_convergence (cfg.max_iteration_counter + 1)) := by
  constructor
  · intro nodes; simp [stopCriterion]
  · intro fuel hfuel
    obtain ⟨f, rfl⟩ : ∃ f, fuel = f + 1 := ⟨fuel - 1, by omega⟩
    have hsc0 : stopCriterion cfg (deltas s₀) 0 = (true, 1) := by
      simp [stopCriterion]
    obtain ⟨s1, hs1⟩ := hstep s₀
    obtain ⟨s', hs'⟩ := solveLoop_divergent_finishes cfg step deltas hmax2
      hstep hdiv (cfg.max_iteration_counter - 1) s1 1 f (by omega) (by omega)
      (by omega)
    have hloop : solveLoop cfg step deltas (f + 1) s₀ 0 =
        some (LoopExit.finished s' (cfg.max_iteration_counter + 1)) := by
      simp [solveLoop, hsc0, hs1, hs']
    unfold solve
    rw [hloop]
    exact if_pos (Nat.lt_succ_self _)

/-- Counterexample to C3 as stated: with the cap set to 0 and a never-within-
tolerance model, `solve` exits with iteration counter 2, not
`max_iteration_counter + 1 = 1` (the first stop-criterion call skips the cap
test entirely, so the counter reaches 2 before the cap is consulted). -/
theorem solve_cap0_exits_at_two :
    solve cfgCap0 okStep oscDeltas 3 () =
      some (SystemResult.from_convergence 2) ∧
    cfgCap0.max_iteration_counter + 1 ≠
      (SystemResult.from_convergence 2).nit := by
  decide

/-- Witness for the amended C3 at a concrete input: cap 2, one model whose
energy delta stays at 2 > 1. -/
theorem solve_divergent_hits_cap_witness :
    (1 ≤ cfgCap2.max_iteration_counter) ∧
    (cfgCap2.max_iteration_counter < 65535) ∧
    (∀ s : Unit, ∃ s', okStep s = Except.ok s') ∧
    (∀ s : Unit, anyDeltaExceeds cfgCap2 (oscDeltas s) = true) ∧
    ((∀ nodes, (stopCriterion cfgCap2 nodes 0).1 = true) ∧
      ∀ fuel, cfgCap2.max_iteration_counter + 1 ≤ fuel →
        solve cfgCap2 okStep oscDeltas fuel () = some
          (SystemResult.from_convergence (cfgCap2.max_iteration_counter + 1))) :=
  ⟨by decide, by decide, fun _ => ⟨(), rfl⟩, by intro s; cases s; decide,
    solve_divergent_hits_cap cfgCap2 okStep oscDeltas ()
      (by decide) (by decide) (fun _ => ⟨(), rfl⟩)
      (by intro s; cases s; decide)⟩


lemma mem_addEdgeNx_self (edges : List (String × String)) (e : String × String) :
    e ∈ addEdgeNx edges e := by
  unfold addEdgeNx
  split
  · assumption
  · exact List.mem_append_right _ (List.mem_singleton_self e)

lemma mem_addEdgeNx_of_mem (edges : List (String × String))
    (e x : String × String) (h : x ∈ edges) : x ∈ addEdgeNx edges e := by
  unfold addEdgeNx
  split
  · exact h
  · exact List.mem_append_left _ h

lemma mem_addEdgeNx_ne (edges : List (String × String)) (e x : String × String)
    (hne : x ≠ e) : x ∈ addEdgeNx edges e ↔ x ∈ edges := by
  unfold addEdgeNx
  split
  · exact Iff.rfl
  · simp [List.mem_append, hne]

lemma mem_addNodeNx_self (nodes : List String) (n : String) :
    n ∈ addNodeNx nodes n := by
  unfold addNodeNx
  split
  · assumption
  · exact List.mem_append_right _ (List.mem_singleton_self n)

lemma mem_addNodeNx_of_mem (nodes : List String) (n x : String) (h : x ∈ nodes) :
    x ∈ addNodeNx nodes n := by
  unfold addNodeNx
  split
  · exact h
  · exact List.mem_append_left _ h

/-- C8: `connect` succeeds iff the two ports share their payload class and the
first is outlet-like while the second is inlet-like; on success the only
mutation of the edge set is the presence of the single edge port1 → port2, and
each violation yields its configuration error (raised before `add_edge`, so
the graph is unchanged). -/
theorem connect_adds_edge_iff (g : SysGraph) (port1 port2 : ConnPort) :
    ((∃ g', connect g port1 port2 = Except.ok g') ↔
      (port1.cls = port2.cls ∧ port1.port_type ∈ outletLike ∧
        port2.port_type ∈ inletLike)) ∧
    (∀ g', connect g port1 port2 = Except.ok g' →
      g'.edges = addEdgeNx g.edges (port1.name, port2.name) ∧
      (port1.name, port2.name) ∈ g'.edges ∧
      ∀ e, e ≠ (port1.name, port2.name) → (e ∈ g'.edges ↔ e ∈ g.edges)) ∧
    (connect g port1 port2 = Except.error ConnectError.incompatibleKinds ↔
      ¬ port1.cls = port2.cls) ∧
    (connect g port1 port2 = Except.error ConnectError.wrongDirection ↔
      (port1.cls = port2.cls ∧ ¬ (port1.port_type ∈ outletLike ∧
        port2.port_type ∈ inletLike))) := by
  by_cases hk : port1.cls = port2.cls
  · by_cases hr : port1.port_type ∈ outletLike ∧ port2.port_type ∈ inletLike
    · refine ⟨⟨fun _ => ⟨hk, hr⟩,
        fun _ => ⟨g.addEdge port1.name port2.name, by simp [connect, hk, hr]⟩⟩,
        ?_, by simp [connect, hk, hr], by simp [connect, hk, hr]⟩
      intro g' hok
      have hg : g.addEdge port1.name port2.name = g' := by
        simpa [connect, hk, hr] using hok
      subst hg
      exact ⟨rfl, mem_addEdgeNx_self _ _, fun e hne => mem_addEdgeNx_ne _ _ _ hne⟩
    · refine ⟨by simp [connect, hk, hr], ?_, by simp [connect, hk, hr],
        by simp [connect, hk, hr]⟩
      intro g' hok
      simp [connect, hk, hr] at hok
  · refine ⟨by simp [connect, hk], ?_, by simp [connect, hk],
      by simp [connect, hk]⟩
    intro g' hok
    simp [connect, hk] at hok

lemma not_inlet_and_outlet (t : PortTypes) (h1 : t ∈ inletTypes)
    (h2 : t ∈ outletTypes) : False := by
  cases t <;> simp [inletTypes, outletTypes] at h1 h2

lemma addPortsLoop_mono (owner : String) : ∀ (ps : List GPort) (g g' : SysGraph),
    addPortsLoop owner g ps = Except.ok g' →
    (∀ x ∈ g.nodes, x ∈ g'.nodes) ∧ (∀ e ∈ g.edges, e ∈ g'.edges) := by
  intro ps
  induction ps with
  | nil =>
    intro g g' h
    simp only [addPortsLoop, Except.ok.injEq] at h
    subst h
    exact ⟨fun x hx => hx, fun e he => he⟩
  | cons q qs ih =>
    intro g g' h
    simp only [addPortsLoop] at h
    split at h
    · have := ih _ _ h
      exact ⟨fun x hx => this.1 x (mem_addNodeNx_of_mem _ _ _
          (mem_addNodeNx_of_mem _ _ _ (mem_addNodeNx_of_mem _ _ _ hx))),
        fun e he => this.2 e (mem_addEdgeNx_of_mem _ _ _ he)⟩
    · split at h
      · have := ih _ _ h
        exact ⟨fun x hx => this.1 x (mem_addNodeNx_of_mem _ _ _
            (mem_addNodeNx_of_mem _ _ _ (mem_addNodeNx_of_mem _ _ _ hx))),
          fun e he => this.2 e (mem_addEdgeNx_of_mem _ _ _ he)⟩
      · cases h

lemma addPortsLoop_ok_ports (owner : String) : ∀ (ps : List GPort) (g g' : SysGraph),
    addPortsLoop owner g ps = Except.ok g' →
    ∀ p ∈ ps, p.name ∈ g'.nodes ∧
      (p.port_type ∈ inletTypes → (p.name, owner) ∈ g'.edges) ∧
      (p.port_type ∈ outletTypes → (owner, p.name) ∈ g'.edges) ∧
      (p.port_type ∈ inletTypes ∨ p.port_type ∈ outletTypes) := by
  intro ps
  induction ps with
  | nil => intro g g' h p hp; cases hp
  | cons q qs ih =>
    intro g g' h p hp
    simp only [addPortsLoop] at h
    rcases List.mem_cons.mp hp with rfl | hp'
    · split at h
      case isTrue hin =>
        have hmono := addPortsLoop_mono owner qs _ _ h
        refine ⟨?_, fun _ => ?_, fun hout => absurd hout
          (fun hout => not_inlet_and_outlet _ hin hout), Or.inl hin⟩
        · exact hmono.1 _ (mem_addNodeNx_of_mem _ _ _
            (mem_addNodeNx_of_mem _ _ _ (mem_addNodeNx_self _ _)))
        · exact hmono.2 _ (mem_addEdgeNx_self _ _)
      case isFalse hnin =>
        split at h
        case isTrue hout =>
          have hmono := addPortsLoop_mono owner qs _ _ h
          refine ⟨?_, fun hin => absurd hin hnin, fun _ => ?_, Or.inr hout⟩
          · exact hmono.1 _ (mem_addNodeNx_of_mem _ _ _
              (mem_addNodeNx_of_mem _ _ _ (mem_addNodeNx_self _ _)))
          · exact hmono.2 _ (mem_addEdgeNx_self _ _)
        case isFalse => cases h
    · split at h
      · exact ih _ _ h p hp'
      · split at h
        · exact ih _ _ h p hp'
        · cases h

lemma addPortsLoop_all_directed_ok (owner : String) : ∀ (ps : List GPort) (g : SysGraph),
    (∀ p ∈ ps, p.port_type ∈ inletTypes ∨ p.port_type ∈ outletTypes) →
    ∃ g', addPortsLoop owner g ps = Except.ok g' := by
  intro ps
  induction ps with
  | nil => intro g _; exact ⟨g, rfl⟩
  | cons q qs ih =>
    intro g hall
    by_cases hin : q.port_type ∈ inletTypes
    · obtain ⟨g', hg'⟩ := ih _ fun p hp => hall p (List.mem_cons_of_mem q hp)
      exact ⟨g', by simp only [addPortsLoop, if_pos hin]; exact hg'⟩
    · rcases hall q (List.mem_cons_self q qs) with hin2 | hout
      · exact absurd hin2 hin
      · obtain ⟨g', hg'⟩ := ih _ fun p hp => hall p (List.mem_cons_of_mem q hp)
        exact ⟨g', by simp only [addPortsLoop, if_neg hin, if_pos hout]; exact hg'⟩

/-- C9 (amended): on successful registration every pure inlet port contributes
containment edge port → owner and every pure outlet port edge owner → port
(and the port is a graph node); but a successful registration forces every
port to be a pure inlet or pure outlet — an inlet-outlet port makes
`add_model`/`add_block` raise the "Wrong port function" configuration error
instead of receiving both edges.  Registration with inlet/outlet-only ports
and a fresh name always succeeds. -/
theorem add_unit_containment_edges (g : SysGraph) (u : GUnit) :
    (∀ g', add_model g u = Except.ok g' →
      ∀ p ∈ u.ports, p.name ∈ g'.nodes ∧
        (p.port_type ∈ inletTypes → (p.name, u.name) ∈ g'.edges) ∧
        (p.port_type ∈ outletTypes → (u.name, p.name) ∈ g'.edges) ∧
        (p.port_type ∈ inletTypes ∨ p.port_type ∈ outletTypes)) ∧
    (u.name ∉ g.models →
      (∀ p ∈ u.ports, p.port_type ∈ inletTypes ∨ p.port_type ∈ outletTypes) →
      ∃ g', add_model g u = Except.ok g') ∧
    (∀ g', add_block g u = Except.ok g' →
      ∀ p ∈ u.ports, p.name ∈ g'.nodes ∧
        (p.port_type ∈ inletTypes → (p.name, u.name) ∈ g'.edges) ∧
        (p.port_type ∈ outletTypes → (u.name, p.name) ∈ g'.edges) ∧
        (p.port_type ∈ inletTypes ∨ p.port_type ∈ outletTypes)) ∧
    (u.name ∉ g.blocks →
      (∀ p ∈ u.ports, p.port_type ∈ inletTypes ∨ p.port_type ∈ outletTypes) →
      ∃ g', add_block g u = Except.ok g') := by
  refine ⟨?_, ?_, ?_, ?_⟩
  · intro g' hok
    unfold add_model at hok
    split at hok
    · cases hok
    · exact addPortsLoop_ok_ports u.name u.ports _ _ hok
  · intro hfresh hall
    unfold add_model
    rw [if_neg hfresh]
    exact addPortsLoop_all_directed_ok u.name u.ports _ hall
  · intro g' hok
    unfold add_block at hok
    split at hok
    · cases hok
    · exact addPortsLoop_ok_ports u.name u.ports _ _ hok
  · intro hfresh hall
    unfold add_block
    rw [if_neg hfresh]
    exact addPortsLoop_all_directed_ok u.name u.ports _ hall

/-- Counterexample to C9 as stated: registering a unit with a single state
inlet-outlet port raises the "Wrong port function" error (with the partially
built graph: unit node, port node, port index — and no containment edge at
all) instead of adding both containment edges. -/
theorem add_model_inlet_outlet_errors :
    add_model emptyGraph unitInletOutlet =
      Except.error (AddUnitError.wrongPortFunction
        ⟨["m1", "m1_port_ab"], [], ["m1"], [], [("m1", ["m1_port_ab"])]⟩) :=
  rfl


lemma find?_map_snd {β : Type} (l : List (String × β)) (m : String)
    (f : String × β → β) :
    (l.map fun u => (u.1, f u)).find? (fun u => u.1 == m) =
      (l.find? (fun u => u.1 == m)).map fun u => (u.1, f u) := by
  induction l with
  | nil => rfl
  | cons u us ih =>
    by_cases hu : u.1 == m
    · simp [List.find?_cons, hu]
    · simp [List.find?_cons, hu, ih]

lemma lookupPort_setPortPayload (net : Net) (n q m q' : String) (pl : Payload) :
    lookupPort (setPortPayload net n q pl) m q' =
      if m = n ∧ q' = q then
        (lookupPort net m q').map fun pd => { pd with payload := pl }
      else lookupPort net m q' := by
  unfold lookupPort setPortPayload
  rw [find?_map_snd]
  cases hfind : net.units.find? (fun u => u.1 == m) with
  | none =>
    simp only [Option.map_none']
    split <;> rfl
  | some u =>
    have hum : u.1 = m := by
      have := List.find?_some hfind
      simpa using this
    simp only [Option.map_some']
    by_cases hmn : m = n
    · have hun : (u.1 == n) = true := by simp [hum, hmn]
      simp only [hun, if_true]
      rw [find?_map_snd]
      cases hpfind : u.2.ports.find? (fun pp => pp.1 == q') with
      | none =>
        simp only [Option.map_none']
        split <;> rfl
      | some pp =>
        have hpq : pp.1 = q' := by
          have := List.find?_some hpfind
          simpa using this
        simp only [Option.map_some']
        by_cases hq : q' = q
        · have hppq : (pp.1 == q) = true := by simp [hpq, hq]
          simp [hppq, hmn, hq]
        · have hppq : (pp.1 == q) = false := by simp [hpq, hq]
          simp [hppq, hmn, hq]
    · have hun : (u.1 == n) = false := by simp [hum, hmn]
      simp [hun, hmn]

lemma getPayload_setPortPayload_ne (net : Net) (n q m q' : String)
    (pl : Payload) (hne : ¬ (m = n ∧ q' = q)) :
    getPayload (setPortPayload net n q pl) m q' = getPayload net m q' := by
  unfold getPayload
  rw [lookupPort_setPortPayload, if_neg hne]

lemma succlist_eq_of_edges (net1 net2 : Net) (h : net1.edges = net2.edges)
    (x : String) : succlist net1 x = succlist net2 x := by
  unfold succlist
  rw [h]

lemma edges_propagateWrite (net : Net) (n o c sn : String) :
    (propagateWrite net n o c sn).edges = net.edges := by
  unfold propagateWrite
  split
  · split_ifs <;> rfl
  · rfl

lemma getPayload_propagateWrite_ne (net : Net) (n o c sn m q : String)
    (hne : ¬ (m = sn ∧ q = c)) :
    getPayload (propagateWrite net n o c sn) m q = getPayload net m q := by
  unfold propagateWrite
  split
  · split_ifs <;>
      first
        | rfl
        | exact getPayload_setPortPayload_ne _ sn c m q _ hne
  · rfl

lemma inner_fold_frame (n o c : String) :
    ∀ (sns : List String) (acc : Net) (m q : String),
      (∀ sn ∈ sns, ¬ (m = sn ∧ q = c)) →
      getPayload (sns.foldl (fun a2 sn => propagateWrite a2 n o c sn) acc) m q =
        getPayload acc m q ∧
      (sns.foldl (fun a2 sn => propagateWrite a2 n o c sn) acc).edges =
        acc.edges := by
  intro sns
  induction sns with
  | nil => intro acc m q _; exact ⟨rfl, rfl⟩
  | cons sn rest ih =>
    intro acc m q hall
    simp only [List.foldl_cons]
    have h1 := getPayload_propagateWrite_ne acc n o c sn m q
      (hall sn (List.mem_cons_self sn rest))
    have h2 := edges_propagateWrite acc n o c sn
    have h3 := ih (propagateWrite acc n o c sn) m q
      (fun x hx => hall x (List.mem_cons_of_mem sn hx))
    exact ⟨h3.1.trans h1, h3.2.trans h2⟩

lemma propagateOutlet_frame (net : Net) (n o m q : String)
    (hno : ∀ c ∈ succlist net o, ∀ sn ∈ succlist net c, ¬ (m = sn ∧ q = c)) :
    getPayload (propagateOutlet net n o) m q = getPayload net m q ∧
    (propagateOutlet net n o).edges = net.edges := by
  unfold propagateOutlet
  suffices h : ∀ (cs : List String) (acc : Net), acc.edges = net.edges →
      (∀ c ∈ cs, ∀ sn ∈ succlist net c, ¬ (m = sn ∧ q = c)) →
      getPayload (cs.foldl (fun a c =>
        (succlist a c).foldl (fun a2 sn => propagateWrite a2 n o c sn) a) acc)
        m q = getPayload acc m q ∧
      (cs.foldl (fun a c =>
        (succlist a c).foldl (fun a2 sn => propagateWrite a2 n o c sn) a)
        acc).edges = net.edges by
    exact h (succlist net o) net rfl hno
  intro cs
  induction cs with
  | nil => intro acc hacc _; exact ⟨rfl, hacc⟩
  | cons c rest ih =>
    intro acc hacc hall
    simp only [List.foldl_cons]
    have hsucc_c : succlist acc c = succlist net c :=
      succlist_eq_of_edges _ _ hacc c
    have hin := inner_fold_frame n o c (succlist acc c) acc m q
      (by rw [hsucc_c]; exact hall c (List.mem_cons_self c rest))
    have hrec := ih ((succlist acc c).foldl
        (fun a2 sn => propagateWrite a2 n o c sn) acc)
      (hin.2.trans hacc) (fun x hx => hall x (List.mem_cons_of_mem c hx))
    exact ⟨hrec.1.trans hin.1, hrec.2⟩

lemma skipOutlet_true_of_stagnant (net : Net) (n o : String) (sv : StateVal)
    (hpl : getPayload net n o = some (Payload.state sv))
    (hflow : sv.m_flow ≤ 0) : skipOutlet net n o = true := by
  unfold skipOutlet
  unfold getPayload at hpl
  cases hl : lookupPort net n o with
  | none => rw [hl] at hpl; cases hpl
  | some pd =>
    rw [hl] at hpl
    simp only [Option.map_some', Option.some.injEq] at hpl
    show (match pd.payload with
      | Payload.state s => decide (s.m_flow ≤ 0)
      | Payload.signal _ => false) = true
    rw [hpl]
    exact decide_eq_true hflow

/-- C6: when an outlet port of a node holds a state with `m_flow ≤ 0`, running
that node's propagation leaves every downstream port whose only write path
from the node runs through that outlet exactly as it was before the pass. -/
theorem no_flow_skips_propagation (net : Net) (n o m q : String) (sv : StateVal)
    (ho : getPayload net n o = some (Payload.state sv))
    (hflow : sv.m_flow ≤ 0)
    (hdown : q ∈ succlist net o ∧ m ∈ succlist net q)
    (hother : ∀ o' ∈ succlist net n, o' ≠ o →
      ∀ c ∈ succlist net o', ∀ sn ∈ succlist net c,
        ¬ (m = sn ∧ q = c) ∧ ¬ (n = sn ∧ o = c)) :
    getPayload (propagateNode net n) m q = getPayload net m q := by
  unfold propagateNode
  suffices h : ∀ (os : List String) (acc : Net),
      acc.edges = net.edges →
      getPayload acc n o = some (Payload.state sv) →
      getPayload acc m q = getPayload net m q →
      (∀ o' ∈ os, o' ≠ o → ∀ c ∈ succlist net o', ∀ sn ∈ succlist net c,
        ¬ (m = sn ∧ q = c) ∧ ¬ (n = sn ∧ o = c)) →
      getPayload (os.foldl (fun acc o' =>
        if skipOutlet acc n o' then acc else propagateOutlet acc n o') acc)
        m q = getPayload net m q by
    exact h (succlist net n) net rfl ho rfl hother
  intro os
  induction os with
  | nil => intro acc _ _ hmq _; exact hmq
  | cons o' rest ih =>
    intro acc hacc hno hmq hall
    simp only [List.foldl_cons]
    by_cases ho' : o' = o
    · subst ho'
      rw [if_pos (skipOutlet_true_of_stagnant acc n o' sv hno hflow)]
      exact ih acc hacc hno hmq
        (fun x hx => hall x (List.mem_cons_of_mem o' hx))
    · by_cases hskip : skipOutlet acc n o'
      · rw [if_pos hskip]
        exact ih acc hacc hno hmq
          (fun x hx => hall x (List.mem_cons_of_mem o' hx))
      · rw [if_neg hskip]
        have hex := hall o' (List.mem_cons_self o' rest) ho'
        have hsucc_o' : succlist acc o' = succlist net o' :=
          succlist_eq_of_edges _ _ hacc o'
        have hf1 := propagateOutlet_frame acc n o' m q (by
          intro c hc sn hsn
          rw [hsucc_o'] at hc
          rw [succlist_eq_of_edges _ _ hacc c] at hsn
          exact (hex c hc sn hsn).1)
        have hf2 := propagateOutlet_frame acc n o' n o (by
          intro c hc sn hsn
          rw [hsucc_o'] at hc
          rw [succlist_eq_of_edges _ _ hacc c] at hsn
          exact (hex c hc sn hsn).2)
        exact ih (propagateOutlet acc n o') (hf1.2.trans hacc)
          (hf2.1.trans hno) (hf1.1.trans hmq)
          (fun x hx => hall x (List.mem_cons_of_mem o' hx))

/-- Witness for C6 at a concrete input: in `netNoFlow` the stagnant outlet `b`
of `n1` (its only outlet) does not overwrite downstream port `b2` of `m2`. -/
theorem no_flow_skips_propagation_witness :
    (getPayload netNoFlow "n1" "b" =
      some (Payload.state ⟨0, 5⟩)) ∧
    ((⟨0, 5⟩ : StateVal).m_flow ≤ 0) ∧
    ("b2" ∈ succlist netNoFlow "b" ∧ "m2" ∈ succlist netNoFlow "b2") ∧
    (∀ o' ∈ succlist netNoFlow "n1", o' ≠ "b" →
      ∀ c ∈ succlist netNoFlow o', ∀ sn ∈ succlist netNoFlow c,
        ¬ ("m2" = sn ∧ "b2" = c) ∧ ¬ ("n1" = sn ∧ "b" = c)) ∧
    getPayload (propagateNode netNoFlow "n1") "m2" "b2" =
      getPayload netNoFlow "m2" "b2" :=
  ⟨by decide, by decide, by decide, by decide,
    no_flow_skips_propagation netNoFlow "n1" "b" "m2" "b2" ⟨0, 5⟩
      (by decide) (by decide) (by decide) (by decide)⟩


/-- C5: assigning a payload into a port stores an independent copy: the stored
object is a fresh address holding a value structurally equal to the source
object's value at assignment time, and any later mutation through the source
reference leaves the port's stored payload unchanged. -/
theorem port_set_payload_copy_isolated (h : Heap) (pA : PortObj) (v : ObjVal)
    (hfresh : ∀ p ∈ h.objs, p.1 < h.next)
    (hA : h.get pA.payloadAddr = some v) :
    ∃ h₁ pB, setPayload h pA.payloadAddr = some (h₁, pB) ∧
      h₁.get pB.payloadAddr = some v ∧
      pB.payloadAddr ≠ pA.payloadAddr ∧
      ∀ w, (h₁.setObj pA.payloadAddr w).get pB.payloadAddr = some v := by
  have hne : h.next ≠ pA.payloadAddr := by
    unfold Heap.get at hA
    cases hfind : h.objs.find? (fun p => p.1 == pA.payloadAddr) with
    | none => rw [hfind] at hA; cases hA
    | some entry =>
      have hmem := List.mem_of_find?_eq_some hfind
      have hlt := hfresh entry hmem
      have heq : entry.1 = pA.payloadAddr := by
        have := List.find?_some hfind
        simpa using this
      rw [heq] at hlt
      exact Nat.ne_of_gt hlt
  have hset : setPayload h pA.payloadAddr =
      some (⟨(h.next, v) :: h.objs, h.next + 1⟩, ⟨h.next⟩) := by
    unfold setPayload Heap.copyObj Heap.alloc
    rw [hA]
    rfl
  refine ⟨_, _, hset, ?_, hne, ?_⟩
  · show Heap.get ⟨(h.next, v) :: h.objs, h.next + 1⟩ h.next = some v
    unfold Heap.get
    rw [List.find?_cons_of_pos _ (by simp)]
    rfl
  · intro w
    show Heap.get
      (Heap.setObj ⟨(h.next, v) :: h.objs, h.next + 1⟩ pA.payloadAddr w)
      h.next = some v
    unfold Heap.setObj Heap.get
    simp only [List.map_cons]
    rw [if_neg hne]
    rw [List.find?_cons_of_pos _ (by simp)]
    rfl

/-- Witness for C5 at a concrete input: a heap holding one signal object at
address 0, copied into a port. -/
theorem port_set_payload_copy_isolated_witness :
    (∀ p ∈ (⟨[(0, ObjVal.signal 5)], 1⟩ : Heap).objs,
      p.1 < (⟨[(0, ObjVal.signal 5)], 1⟩ : Heap).next) ∧
    ((⟨[(0, ObjVal.signal 5)], 1⟩ : Heap).get (PortObj.mk 0).payloadAddr =
      some (ObjVal.signal 5)) ∧
    ∃ h₁ pB, setPayload ⟨[(0, ObjVal.signal 5)], 1⟩
        (PortObj.mk 0).payloadAddr = some (h₁, pB) ∧
      h₁.get pB.payloadAddr = some (ObjVal.signal 5) ∧
      pB.payloadAddr ≠ (PortObj.mk 0).payloadAddr ∧
      ∀ w, (h₁.setObj (PortObj.mk 0).payloadAddr w).get pB.payloadAddr =
        some (ObjVal.signal 5) :=
  ⟨by decide, by decide,
    port_set_payload_copy_isolated ⟨[(0, ObjVal.signal 5)], 1⟩ (PortObj.mk 0)
      (ObjVal.signal 5) (by decide) (by decide)⟩


end Thermd
